import Mathlib

/-!
Verification development for the sensor-dashboard-plotly telemetry pipeline
(src/sensor-dashboard-plotly/utils.py and app.py).

Shallow embedding conventions:
* Python floats are modelled as exact rationals; the z-score and standard
  deviation values, which the code obtains through a square root, are
  expressed at the theorem level with Real.sqrt applied to the exact
  rational square kept by the embedding.
* The readings stored in the global deque are dictionaries whose
  "timestamp" entry is the string datetime.isoformat() output; here a
  reading keeps the structured date-time value, together with the
  documented fact that the isoformat string carries a ".%f" fractional
  part exactly when microsecond is nonzero.
* Failure of a polars operation (a raised exception) is modelled with
  Except String.
-/

set_option autoImplicit false

namespace SensorDashboard

/-- Structured timestamp as produced by python datetime; the fields are the
ones datetime.isoformat prints. -/
structure DateTime where
  year : Nat
  month : Nat
  day : Nat
  hour : Nat
  minute : Nat
  second : Nat
  microsecond : Nat
deriving DecidableEq, Repr

/-- Lexicographic encoding of a DateTime; for in-range field values
(month ≤ 12, day ≤ 31, hour < 24, minute < 60, second < 60,
microsecond < 1000000) it is strictly monotone in chronological order, so
comparing keys compares instants. -/
def DateTime.key (t : DateTime) : Nat :=
  (((((t.year * 13 + t.month) * 32 + t.day) * 24 + t.hour) * 60 + t.minute) * 60
      + t.second) * 1000000 + t.microsecond

/-- Python docs for datetime.isoformat: the fractional ".%f" component is
omitted exactly when microsecond is 0. Polars str.strptime with the strict
format "%Y-%m-%dT%H:%M:%S.%f" (utils.py line 80) demands that fractional
component, so parsing an isoformat timestamp succeeds iff microsecond ≠ 0. -/
def DateTime.strptimeOk (t : DateTime) : Bool :=
  t.microsecond != 0

/-- One sensor reading dictionary as built by SensorData.generate_reading
(utils.py lines 43-63): isoformat timestamp, three float fields and a
categorical status string. -/
structure Reading where
  timestamp : DateTime
  temperature : ℚ
  humidity : ℚ
  pressure : ℚ
  status : String
deriving DecidableEq, Repr

/-! ### The rolling history buffer

utils.py line 65: recent_readings = deque(maxlen=100).  A bounded
collections.deque discards the single leftmost (oldest) element when an
append hits the maxlen bound. -/

/-- Append on a python collections.deque with the given maxlen: when the
deque is below capacity the element is appended at the right end, otherwise
the single oldest (leftmost) entry is discarded first. -/
def dequeAppend (maxlen : Nat) (buf : List Reading) (r : Reading) : List Reading :=
  if buf.length < maxlen then buf ++ [r] else buf.drop 1 ++ [r]

/-- Capacity of the recent_readings deque (utils.py line 65). -/
def recentReadingsMaxlen : Nat := 100

/-- Appending the elements of rs one by one to a deque holding buf. -/
def dequeExtend (maxlen : Nat) (buf : List Reading) (rs : List Reading) : List Reading :=
  rs.foldl (dequeAppend maxlen) buf

theorem dequeExtend_eq_drop (maxlen : Nat) (hcap : 0 < maxlen) :
    ∀ (rs buf : List Reading), buf.length ≤ maxlen →
      dequeExtend maxlen buf rs = (buf ++ rs).drop (buf.length + rs.length - maxlen) := by
  intro rs
  induction rs with
  | nil =>
      intro buf hb
      simp [dequeExtend, Nat.sub_eq_zero_of_le hb]
  | cons r rs ih =>
      intro buf hb
      have hfold : dequeExtend maxlen buf (r :: rs)
          = dequeExtend maxlen (dequeAppend maxlen buf r) rs := rfl
      by_cases h : buf.length < maxlen
      · have hstep : dequeAppend maxlen buf r = buf ++ [r] := by
          simp [dequeAppend, h]
        have hlen1 : (buf ++ [r]).length = buf.length + 1 := by
          simp
        have hlen : (buf ++ [r]).length ≤ maxlen := by
          rw [hlen1]; omega
        have hih := ih (buf ++ [r]) hlen
        rw [hfold, hstep, hih, hlen1]
        have hlist : (buf ++ [r]) ++ rs = buf ++ (r :: rs) := by
          simp
        have hidx : buf.length + 1 + rs.length - maxlen
            = buf.length + (r :: rs).length - maxlen := by
          simp only [List.length_cons]
          omega
        rw [hlist, hidx]
      · have hfull : buf.length = maxlen := le_antisymm hb (le_of_not_lt h)
        have hne : buf ≠ [] := by
          intro hnil
          rw [hnil] at hfull
          simp only [List.length_nil] at hfull
          omega
        obtain ⟨a, buf', rfl⟩ := List.exists_cons_of_ne_nil hne
        have hstep : dequeAppend maxlen (a :: buf') r = buf' ++ [r] := by
          unfold dequeAppend
          rw [if_neg h]
          simp
        have hfull2 : buf'.length + 1 = maxlen := by
          simpa using hfull
        have hlen1 : (buf' ++ [r]).length = buf'.length + 1 := by
          simp
        have hlen : (buf' ++ [r]).length ≤ maxlen := by
          rw [hlen1]; omega
        have hih := ih (buf' ++ [r]) hlen
        rw [hfold, hstep, hih, hlen1]
        have h1 : buf'.length + 1 + rs.length - maxlen = rs.length := by omega
        have h2 : (a :: buf').length + (r :: rs).length - maxlen = rs.length + 1 := by
          simp only [List.length_cons]
          omega
        rw [h1, h2]
        have hlist : (buf' ++ [r]) ++ rs = buf' ++ (r :: rs) := by
          simp
        rw [hlist]
        have hlist2 : (a :: buf') ++ (r :: rs) = a :: (buf' ++ (r :: rs)) := by
          simp
        rw [hlist2, List.drop_succ_cons]

/-- C1: after any sequence of append calls on the recent_readings deque
(starting from the empty deque), the buffer length never exceeds the
capacity 100, the remaining entries are exactly the 100 most recently
appended readings in insertion (chronological) order, and an append to a
full buffer evicts exactly the single oldest entry (FIFO). -/
theorem recent_readings_bounded_fifo (rs : List Reading) :
    (dequeExtend recentReadingsMaxlen [] rs).length ≤ recentReadingsMaxlen
    ∧ dequeExtend recentReadingsMaxlen [] rs = rs.drop (rs.length - recentReadingsMaxlen)
    ∧ (∀ (buf : List Reading) (r : Reading), buf.length = recentReadingsMaxlen →
        dequeAppend recentReadingsMaxlen buf r = buf.drop 1 ++ [r]) := by
  have hmain := dequeExtend_eq_drop recentReadingsMaxlen (by simp [recentReadingsMaxlen]) rs []
    (by simp)
  simp only [List.nil_append, List.length_nil, Nat.zero_add] at hmain
  refine ⟨?_, hmain, ?_⟩
  · rw [hmain, List.length_drop]
    omega
  · intro buf r hb
    simp [dequeAppend, hb]

/-- Witness for recent_readings_bounded_fifo at a concrete input: three
appends leave the three readings in order, and an append to a concrete full
buffer drops exactly its head. -/
theorem recent_readings_bounded_fifo_witness :
    (dequeExtend recentReadingsMaxlen []
        [⟨⟨2024, 1, 1, 0, 0, 0, 1⟩, 20, 50, 1000, "normal"⟩]).length ≤ recentReadingsMaxlen
    ∧ dequeAppend recentReadingsMaxlen
        (List.replicate 100 (⟨⟨2024, 1, 1, 0, 0, 0, 1⟩, 20, 50, 1000, "normal"⟩ : Reading))
        ⟨⟨2024, 1, 1, 0, 0, 1, 1⟩, 21, 51, 1001, "warning"⟩
      = (List.replicate 100 (⟨⟨2024, 1, 1, 0, 0, 0, 1⟩, 20, 50, 1000, "normal"⟩ : Reading)).drop 1
          ++ [⟨⟨2024, 1, 1, 0, 0, 1, 1⟩, 21, 51, 1001, "warning"⟩] := by
  refine ⟨(recent_readings_bounded_fifo _).1, ?_⟩
  exact (recent_readings_bounded_fifo []).2.2
    (List.replicate 100 (⟨⟨2024, 1, 1, 0, 0, 0, 1⟩, 20, 50, 1000, "normal"⟩ : Reading))
    ⟨⟨2024, 1, 1, 0, 0, 1, 1⟩, 21, 51, 1001, "warning"⟩ (by simp [recentReadingsMaxlen])

/-! ### Polars primitives used by the statistics and anomaly code

The code calls polars mean, std(ddof = 1), value_counts and str.strptime.
Floats are modelled as exact rationals; std and the z-score, whose values
involve a square root, are handled through their exact squares, with
Real.sqrt applied at the theorem level. -/

/-- Arithmetic mean of a list of rationals (the value polars mean computes
on a non-empty column). -/
def meanQ (xs : List ℚ) : ℚ := xs.sum / xs.length

/-- Sample variance with denominator n - 1, the square of the value polars
std(ddof = 1) computes on a column with at least two entries. -/
def sampleVarQ (xs : List ℚ) : ℚ :=
  ((xs.map (fun x => (x - meanQ xs) ^ 2)).sum) / ((xs.length : ℚ) - 1)

/-- Polars Series.mean: null on an empty column, the arithmetic mean
otherwise. -/
def polarsMean (xs : List ℚ) : Option ℚ :=
  if xs.isEmpty then none else some (meanQ xs)

/-- Polars Series.std with ddof = 1: null when the column has at most one
entry (the divisor n - ddof would be 0), otherwise the square root of the
sample variance. The exact square (the sample variance) is kept here; the
std the code reports is Real.sqrt of it. -/
def polarsStdSq (xs : List ℚ) : Option ℚ :=
  if xs.length ≤ 1 then none else some (sampleVarQ xs)

/-- Polars Series.value_counts with the default sort = False: one
(value, count) pair per distinct value of the column. The emission order of
the distinct values is unspecified (hash group-by), so it is an explicit
parameter here; an order is realisable when it enumerates exactly the
distinct values of the column, see validCountOrder. -/
def value_counts (order : List String) (xs : List String) : List (String × Nat) :=
  order.map (fun s => (s, xs.count s))

/-- An emission order the polars group-by could produce: some enumeration
of exactly the distinct values observed in the column. -/
def validCountOrder (order : List String) (xs : List String) : Prop :=
  order.Perm xs.dedup

/-- Error raised by polars str.strptime (strict, the default) when a
timestamp string does not match "%Y-%m-%dT%H:%M:%S.%f". -/
def strptimeError : String := "strptime parse error"

/-- utils.py lines 67-84, get_sensor_dataframe: an empty buffer yields an
empty DataFrame without touching timestamps; otherwise every "timestamp"
string is parsed with the strict format "%Y-%m-%dT%H:%M:%S.%f", which
raises when any isoformat timestamp lacks the fractional component
(microsecond = 0, see DateTime.strptimeOk). On success the rows are the
buffered readings in buffer order. -/
def get_sensor_dataframe (buf : List Reading) : Except String (List Reading) :=
  if buf.isEmpty then .ok []
  else if buf.all (fun r => r.timestamp.strptimeOk) then .ok buf
  else .error strptimeError

/-- The statistics record built by get_statistical_summary (utils.py lines
86-108). The code keys are temp_mean, temp_std, humidity_mean,
humidity_std, pressure_mean, pressure_std, status_counts; the three std
entries are Real.sqrt of the temp_std_sq, humidity_std_sq and
pressure_std_sq fields kept here as exact squares. -/
structure Summary where
  temp_mean : Option ℚ
  temp_std_sq : Option ℚ
  humidity_mean : Option ℚ
  humidity_std_sq : Option ℚ
  pressure_mean : Option ℚ
  pressure_std_sq : Option ℚ
  status_counts : List (String × Nat)
deriving DecidableEq, Repr

/-- utils.py lines 86-108, get_statistical_summary: converts the buffer to
a DataFrame (propagating a strptime failure), returns the empty dict
(modelled as none) when the DataFrame is empty, and otherwise the polars
aggregations per column. The order parameter is the unspecified group-by
emission order of value_counts. -/
def get_statistical_summary (order : List String) (buf : List Reading) :
    Except String (Option Summary) :=
  match get_sensor_dataframe buf with
  | .error e => .error e
  | .ok df =>
    if df.isEmpty then .ok none
    else .ok (some
      ⟨polarsMean (df.map Reading.temperature),
        polarsStdSq (df.map Reading.temperature),
        polarsMean (df.map Reading.humidity),
        polarsStdSq (df.map Reading.humidity),
        polarsMean (df.map Reading.pressure),
        polarsStdSq (df.map Reading.pressure),
        value_counts order (df.map Reading.status)⟩)

/-! ### Anomaly detection

utils.py lines 110-140, detect_anomalies: after the DataFrame conversion
and the minimum-sample guard (len < 10 returns []), the code computes
temp_zscore = (temperature - mean) / std over the whole column and keeps
the rows with abs(temp_zscore) > 2.  The threshold 2 is hard-coded at line
127; the spec names it as the threshold parameter (default 2.0), so the
embedding takes it as a parameter and instantiates it with 2. -/

/-- The float comparison abs((x - m) / std) > t where std = Real.sqrt v,
under IEEE float semantics: when v = 0 the quotient is NaN for x = m
(never above any threshold) and plus or minus infinity for x ≠ m (above
every finite threshold); when v > 0 and t ≥ 0 the comparison is equivalent
to (x - m)^2 > t^2 * v, which keeps the test computable over ℚ.  The
equivalence with the Real.sqrt form is proved in zscoreExceeds_iff. -/
def zscoreExceeds (t m v x : ℚ) : Bool :=
  if v = 0 then x != m else decide (t ^ 2 * v < (x - m) ^ 2)

/-- The rows of the DataFrame kept by the anomaly filter (threshold t). -/
def detectRows (t : ℚ) (df : List Reading) : List Reading :=
  if df.length < 10 then []
  else df.filter (fun r =>
    zscoreExceeds t (meanQ (df.map Reading.temperature))
      (sampleVarQ (df.map Reading.temperature)) r.temperature)

/-- One entry of the list detect_anomalies returns: the code selects the
columns timestamp, temperature, temp_zscore (the spec calls the last one
z_score). -/
structure AnomalyRecord where
  timestamp : DateTime
  temperature : ℚ
  temp_zscore : ℝ

/-- The record built for a kept row: its timestamp and temperature with
the z-score (temperature - mean) / std where std = Real.sqrt of the sample
variance. -/
noncomputable def anomalyRecordOf (m v : ℚ) (r : Reading) : AnomalyRecord :=
  ⟨r.timestamp, r.temperature, ((r.temperature : ℝ) - (m : ℝ)) / Real.sqrt (v : ℝ)⟩

/-- utils.py lines 110-140 with the threshold generalised: DataFrame
conversion (propagating a strptime failure), the minimum-sample guard, the
z-score filter and the column selection. -/
noncomputable def detectAnomaliesGen (t : ℚ) (buf : List Reading) :
    Except String (List AnomalyRecord) :=
  match get_sensor_dataframe buf with
  | .error e => .error e
  | .ok df =>
    .ok ((detectRows t df).map
      (anomalyRecordOf (meanQ (df.map Reading.temperature))
        (sampleVarQ (df.map Reading.temperature))))

/-- utils.py detect_anomalies: the generalised detector at the hard-coded
threshold 2. -/
noncomputable def detect_anomalies (buf : List Reading) :
    Except String (List AnomalyRecord) :=
  detectAnomaliesGen 2 buf

/-! ### Supporting lemmas -/

theorem get_sensor_dataframe_ok {buf df : List Reading}
    (h : get_sensor_dataframe buf = .ok df) : df = buf := by
  unfold get_sensor_dataframe at h
  by_cases he : buf.isEmpty
  · rw [if_pos he] at h
    cases h
    exact (List.isEmpty_iff.mp he).symm
  · rw [if_neg he] at h
    by_cases hp : buf.all (fun r => r.timestamp.strptimeOk)
    · rw [if_pos hp] at h
      cases h
      rfl
    · rw [if_neg hp] at h
      cases h

theorem get_sensor_dataframe_of_parse {buf : List Reading} (hne : buf ≠ [])
    (hp : ∀ r ∈ buf, r.timestamp.microsecond ≠ 0) :
    get_sensor_dataframe buf = .ok buf := by
  unfold get_sensor_dataframe
  rw [if_neg (by simpa using hne), if_pos]
  rw [List.all_eq_true]
  intro r hr
  simpa [DateTime.strptimeOk] using hp r hr

theorem get_sensor_dataframe_error {buf : List Reading} {r : Reading} (hr : r ∈ buf)
    (h0 : r.timestamp.microsecond = 0) :
    get_sensor_dataframe buf = .error strptimeError := by
  unfold get_sensor_dataframe
  rw [if_neg (by simp [List.isEmpty_iff]; exact List.ne_nil_of_mem hr), if_neg]
  intro hall
  rw [List.all_eq_true] at hall
  have := hall r hr
  simp [DateTime.strptimeOk, h0] at this

theorem list_sum_of_all_eq {xs : List ℚ} {c : ℚ} (hall : ∀ x ∈ xs, x = c) :
    xs.sum = xs.length * c := by
  induction xs with
  | nil => simp
  | cons y ys ih =>
      have hy := hall y (by simp)
      have hys := ih (fun x hx => hall x (List.mem_cons_of_mem _ hx))
      simp only [List.sum_cons, List.length_cons, hy, hys]
      push_cast
      ring

theorem meanQ_const {xs : List ℚ} {c : ℚ} (hne : xs ≠ [])
    (hall : ∀ x ∈ xs, x = c) : meanQ xs = c := by
  unfold meanQ
  rw [list_sum_of_all_eq hall]
  have hlen : (xs.length : ℚ) ≠ 0 := by
    have h0 : xs.length ≠ 0 := fun h => hne (List.length_eq_zero.mp h)
    exact_mod_cast h0
  exact mul_div_cancel_left₀ c hlen

theorem sampleVarQ_const {xs : List ℚ} {c : ℚ} (hall : ∀ x ∈ xs, x = c) :
    sampleVarQ xs = 0 := by
  unfold sampleVarQ
  rcases List.eq_nil_or_concat xs with rfl | _
  · simp
  · have hmean : ∀ x ∈ xs, x - meanQ xs = 0 := by
      intro x hx
      have hne : xs ≠ [] := List.ne_nil_of_mem hx
      rw [hall x hx, meanQ_const hne hall, sub_self]
    have : xs.map (fun x => (x - meanQ xs) ^ 2) = xs.map (fun _ => 0) := by
      apply List.map_congr_left
      intro x hx
      rw [hmean x hx]
      ring
    rw [this]
    simp

theorem sampleVarQ_nonneg {xs : List ℚ} (h : 2 ≤ xs.length) : 0 ≤ sampleVarQ xs := by
  unfold sampleVarQ
  apply div_nonneg
  · apply List.sum_nonneg
    intro x hx
    obtain ⟨y, _, rfl⟩ := List.mem_map.mp hx
    positivity
  · have : (2 : ℚ) ≤ (xs.length : ℚ) := by exact_mod_cast h
    linarith

theorem sampleVarQ_eq_zero_all_eq {xs : List ℚ} (hlen : 2 ≤ xs.length)
    (hv : sampleVarQ xs = 0) : ∀ x ∈ xs, x = meanQ xs := by
  intro x hx
  unfold sampleVarQ at hv
  have hden : ((xs.length : ℚ) - 1) ≠ 0 := by
    have : (2 : ℚ) ≤ (xs.length : ℚ) := by exact_mod_cast hlen
    intro h0
    linarith
  rw [div_eq_zero_iff] at hv
  rcases hv with hv | hv
  · have hsq : (x - meanQ xs) ^ 2 = 0 := by
      refine List.all_zero_of_le_zero_le_of_sum_eq_zero ?_ hv ?_
      · intro y hy
        obtain ⟨z, _, rfl⟩ := List.mem_map.mp hy
        positivity
      · exact List.mem_map_of_mem _ hx
    have := sq_eq_zero_iff.mp hsq
    linarith [sub_eq_zero.mp this]
  · exact absurd hv hden

theorem sampleVarQ_ne_zero {xs : List ℚ} {x y : ℚ} (hx : x ∈ xs) (hy : y ∈ xs)
    (hxy : x ≠ y) (hlen : 2 ≤ xs.length) : sampleVarQ xs ≠ 0 := by
  intro hv
  have h1 := sampleVarQ_eq_zero_all_eq hlen hv x hx
  have h2 := sampleVarQ_eq_zero_all_eq hlen hv y hy
  exact hxy (h1.trans h2.symm)

theorem zscoreExceeds_iff (t m v x : ℚ) (ht : 0 ≤ t) (hv : 0 < v) :
    zscoreExceeds t m v x = true
      ↔ (t : ℝ) < |((x : ℝ) - (m : ℝ)) / Real.sqrt (v : ℝ)| := by
  have hvR : (0 : ℝ) < (v : ℝ) := by exact_mod_cast hv
  have hs : 0 < Real.sqrt (v : ℝ) := Real.sqrt_pos.mpr hvR
  have htR : (0 : ℝ) ≤ (t : ℝ) := by exact_mod_cast ht
  unfold zscoreExceeds
  rw [if_neg (ne_of_gt hv), decide_eq_true_eq]
  rw [abs_div, abs_of_pos hs, lt_div_iff₀ hs]
  rw [show (t : ℝ) * Real.sqrt (v : ℝ) < |(x : ℝ) - (m : ℝ)|
        ↔ ((t : ℝ) * Real.sqrt (v : ℝ)) ^ 2 < |(x : ℝ) - (m : ℝ)| ^ 2 from
      (pow_lt_pow_iff_left₀ (by positivity) (abs_nonneg _) (by norm_num)).symm]
  rw [mul_pow, Real.sq_sqrt hvR.le, sq_abs]
  constructor
  · intro h
    have : ((t ^ 2 * v : ℚ) : ℝ) < (((x - m) ^ 2 : ℚ) : ℝ) := by exact_mod_cast h
    push_cast at this
    linarith
  · intro h
    have : ((t ^ 2 * v : ℚ) : ℝ) < (((x - m) ^ 2 : ℚ) : ℝ) := by push_cast; linarith
    exact_mod_cast this

theorem zscoreExceeds_of_var_zero {t m c : ℚ} (hc : c = m) :
    zscoreExceeds t m 0 c = false := by
  unfold zscoreExceeds
  rw [if_pos rfl]
  simp [hc]

/-! ### Concrete readings used by witnesses and counterexamples -/

/-- A reading whose isoformat timestamp carries a fractional component. -/
def rFrac : Reading := ⟨⟨2024, 1, 1, 0, 0, 0, 1⟩, 20, 50, 1000, "normal"⟩

/-- A reading generated at a whole second (microsecond 0), whose isoformat
timestamp has no fractional component. -/
def rNoFrac : Reading := ⟨⟨2024, 1, 1, 0, 0, 0, 0⟩, 20, 50, 1000, "normal"⟩

/-! ### C9 -/

/-- C9: when the buffer holds zero readings, get_statistical_summary
returns the empty summary (the code returns the empty dict, modelled as
none) for every group-by emission order, and never raises. -/
theorem summary_empty_buffer (order : List String) :
    get_statistical_summary order [] = .ok none := rfl

/-- Witness for summary_empty_buffer at the empty emission order. -/
theorem summary_empty_buffer_witness :
    get_statistical_summary [] [] = .ok none :=
  summary_empty_buffer []

/-! ### C5 -/

/-- C5 (amended): for every snapshot with fewer than 10 readings all of
whose timestamps carry a fractional-seconds component — in particular for
the empty snapshot — detect_anomalies returns the empty sequence,
regardless of the numeric values, rather than an error. -/
theorem detect_anomalies_insufficient (buf : List Reading)
    (hlen : buf.length < 10)
    (hp : ∀ r ∈ buf, r.timestamp.microsecond ≠ 0) :
    detect_anomalies buf = .ok [] := by
  unfold detect_anomalies detectAnomaliesGen
  rcases eq_or_ne buf [] with rfl | hne
  · rfl
  · rw [get_sensor_dataframe_of_parse hne hp]
    simp [detectRows, hlen]

/-- Witness for detect_anomalies_insufficient: a single parseable reading
gives the empty result. -/
theorem detect_anomalies_insufficient_witness :
    detect_anomalies [rFrac] = .ok [] :=
  detect_anomalies_insufficient [rFrac] (by decide) (by decide)

/-- Counterexample to C5 as stated: a snapshot of one reading whose
timestamp has microsecond 0 makes detect_anomalies raise a strptime parse
error instead of returning the empty sequence. -/
theorem detect_anomalies_insufficient_cex :
    detect_anomalies [rNoFrac] = .error strptimeError := by
  unfold detect_anomalies detectAnomaliesGen
  rw [get_sensor_dataframe_error (List.mem_singleton_self rNoFrac) rfl]

/-! ### C10 -/

/-- C10: on a non-empty buffer the DataFrame conversion succeeds iff every
stored timestamp has a fractional-seconds component; as soon as one
reading has microsecond 0 the strict strptime parse raises, and the
statistics and anomaly requests fail with that error rather than
returning a result. -/
theorem dataframe_requires_fractional_seconds (buf : List Reading)
    (hne : buf ≠ []) :
    ((∀ r ∈ buf, r.timestamp.microsecond ≠ 0) → get_sensor_dataframe buf = .ok buf)
    ∧ (∀ r ∈ buf, r.timestamp.microsecond = 0 →
        get_sensor_dataframe buf = .error strptimeError
        ∧ (∀ order, get_statistical_summary order buf = .error strptimeError)
        ∧ detect_anomalies buf = .error strptimeError) := by
  constructor
  · intro hp
    exact get_sensor_dataframe_of_parse hne hp
  · intro r hr h0
    have hdf := get_sensor_dataframe_error hr h0
    refine ⟨hdf, ?_, ?_⟩
    · intro order
      unfold get_statistical_summary
      rw [hdf]
    · unfold detect_anomalies detectAnomaliesGen
      rw [hdf]

/-- Witness for dataframe_requires_fractional_seconds: a buffer holding
one whole-second reading makes conversion, statistics and anomaly
detection all fail. -/
theorem dataframe_requires_fractional_seconds_witness :
    get_sensor_dataframe [rNoFrac] = .error strptimeError
    ∧ get_statistical_summary [] [rNoFrac] = .error strptimeError
    ∧ detect_anomalies [rNoFrac] = .error strptimeError := by
  have h := (dataframe_requires_fractional_seconds [rNoFrac] (by decide)).2
    rNoFrac (by decide) rfl
  exact ⟨h.1, h.2.1 [], h.2.2⟩

/-! ### C6 -/

theorem detectAnomaliesGen_ok {buf df : List Reading}
    (h : get_sensor_dataframe buf = .ok df) (t : ℚ) :
    detectAnomaliesGen t buf
      = .ok ((detectRows t df).map
          (anomalyRecordOf (meanQ (df.map Reading.temperature))
            (sampleVarQ (df.map Reading.temperature)))) := by
  unfold detectAnomaliesGen
  rw [h]

/-- The anomaly filter keeps no row when every temperature of the
DataFrame is the same value c: the sample variance is 0, so the z-score is
NaN (0/0) on every row and no comparison with the threshold holds. -/
theorem detectRows_const (t c : ℚ) (df : List Reading)
    (hall : ∀ r ∈ df, r.temperature = c) :
    detectRows t df = [] := by
  unfold detectRows
  by_cases hlen : df.length < 10
  · rw [if_pos hlen]
  · rw [if_neg hlen]
    have hne : df ≠ [] := by
      intro h
      rw [h] at hlen
      simp at hlen
    have htemps : ∀ x ∈ df.map Reading.temperature, x = c := by
      intro x hx
      obtain ⟨r, hr, rfl⟩ := List.mem_map.mp hx
      exact hall r hr
    have hm : meanQ (df.map Reading.temperature) = c :=
      meanQ_const (by simpa using hne) htemps
    have hv : sampleVarQ (df.map Reading.temperature) = 0 :=
      sampleVarQ_const htemps
    rw [List.filter_eq_nil_iff]
    intro r hr
    rw [hm, hv, hall r hr, zscoreExceeds_of_var_zero rfl]
    simp

/-- C6: for every snapshot of at least 10 parseable readings whose
temperatures are all identical (sample standard deviation 0),
detect_anomalies flags nothing and returns the empty sequence — for every
threshold, not only the hard-coded 2 — without raising a division error. -/
theorem detect_anomalies_zero_stddev (c : ℚ) (buf : List Reading)
    (h10 : 10 ≤ buf.length)
    (hp : ∀ r ∈ buf, r.timestamp.microsecond ≠ 0)
    (hall : ∀ r ∈ buf, r.temperature = c) :
    (∀ t : ℚ, detectAnomaliesGen t buf = .ok []) ∧ detect_anomalies buf = .ok [] := by
  have hne : buf ≠ [] := by
    intro h
    rw [h] at h10
    simp at h10
  have key : ∀ t : ℚ, detectAnomaliesGen t buf = .ok [] := by
    intro t
    rw [detectAnomaliesGen_ok (get_sensor_dataframe_of_parse hne hp) t,
      detectRows_const t c buf hall]
    rfl
  exact ⟨key, key 2⟩

/-- Witness for detect_anomalies_zero_stddev: ten identical readings give
the empty anomaly list. -/
theorem detect_anomalies_zero_stddev_witness :
    detect_anomalies (List.replicate 10 rFrac) = .ok [] :=
  (detect_anomalies_zero_stddev 20 (List.replicate 10 rFrac)
    (by decide) (by decide) (by decide)).2

/-! ### C3 -/

/-- A parseable reading at second s with the given temperature. -/
def mkN (s : Nat) (t : ℚ) : Reading := ⟨⟨2024, 1, 1, 0, 0, s, 1⟩, t, 50, 1000, "normal"⟩

/-- The snapshot of the spec test property: 20 readings, 19 with
temperature 20.0 and one with temperature 40.0. Mean 21, sample variance
(19 * 1 + 361) / 19 = 20, so the outlier has z-score 19 / sqrt 20 ≈ 4.25
and each 20.0 reading has z-score -1 / sqrt 20 ≈ -0.22. -/
def bufC3 : List Reading :=
  [mkN 0 20, mkN 1 20, mkN 2 20, mkN 3 20, mkN 4 20, mkN 5 20, mkN 6 20,
   mkN 7 20, mkN 8 20, mkN 9 20, mkN 10 20, mkN 11 20, mkN 12 20, mkN 13 20,
   mkN 14 20, mkN 15 20, mkN 16 20, mkN 17 20, mkN 18 20, mkN 19 40]

theorem bufC3_temps :
    bufC3.map Reading.temperature = List.replicate 19 (20 : ℚ) ++ [40] := by
  decide

theorem bufC3_mean : meanQ (bufC3.map Reading.temperature) = 21 := by
  rw [bufC3_temps]
  unfold meanQ
  norm_num [List.replicate]

theorem bufC3_var : sampleVarQ (bufC3.map Reading.temperature) = 20 := by
  unfold sampleVarQ
  rw [bufC3_mean, bufC3_temps]
  norm_num [List.replicate]

theorem zscoreExceeds_at_20 : zscoreExceeds 2 21 20 20 = false := by
  unfold zscoreExceeds
  rw [if_neg (by norm_num)]
  simp only [decide_eq_false_iff_not]
  norm_num

theorem zscoreExceeds_at_40 : zscoreExceeds 2 21 20 40 = true := by
  unfold zscoreExceeds
  rw [if_neg (by norm_num)]
  simp only [decide_eq_true_eq]
  norm_num

theorem detectRows_bufC3 : detectRows 2 bufC3 = [mkN 19 40] := by
  unfold detectRows
  rw [if_neg (by decide)]
  simp only [bufC3_mean, bufC3_var]
  simp only [bufC3, List.filter_cons, List.filter_nil, mkN,
    zscoreExceeds_at_20, zscoreExceeds_at_40]
  rfl

/-- C3: for every snapshot of at least 10 parseable readings with nonzero
sample variance of temperature, detect_anomalies returns the record of a
reading iff its absolute z-score (temperature minus snapshot mean, over
the snapshot sample standard deviation) exceeds 2; and on the concrete
snapshot of 19 readings at 20.0 plus one at 40.0, exactly the 40.0 reading
is returned, with z-score 19 / sqrt 20. -/
theorem detect_anomalies_zscore_threshold :
    (∀ buf : List Reading, 10 ≤ buf.length →
      (∀ r ∈ buf, r.timestamp.microsecond ≠ 0) →
      sampleVarQ (buf.map Reading.temperature) ≠ 0 →
      ∃ recs, detect_anomalies buf = .ok recs
        ∧ ∀ r ∈ buf,
            (anomalyRecordOf (meanQ (buf.map Reading.temperature))
                (sampleVarQ (buf.map Reading.temperature)) r ∈ recs
              ↔ (2 : ℝ) < |((r.temperature : ℝ)
                    - ((meanQ (buf.map Reading.temperature) : ℚ) : ℝ))
                  / Real.sqrt ((sampleVarQ (buf.map Reading.temperature) : ℚ) : ℝ)|))
    ∧ detect_anomalies bufC3
        = .ok [⟨⟨2024, 1, 1, 0, 0, 19, 1⟩, 40, 19 / Real.sqrt 20⟩] := by
  constructor
  · intro buf h10 hp hv
    have hne : buf ≠ [] := by
      intro h
      rw [h] at h10
      simp at h10
    have hlen2 : 2 ≤ (buf.map Reading.temperature).length := by
      rw [List.length_map]
      omega
    have hvpos : 0 < sampleVarQ (buf.map Reading.temperature) :=
      lt_of_le_of_ne (sampleVarQ_nonneg hlen2) (Ne.symm hv)
    have hrows : detectRows 2 buf
        = buf.filter (fun r =>
            zscoreExceeds 2 (meanQ (buf.map Reading.temperature))
              (sampleVarQ (buf.map Reading.temperature)) r.temperature) := by
      unfold detectRows
      rw [if_neg (not_lt.mpr h10)]
    refine ⟨_, by
      unfold detect_anomalies
      rw [detectAnomaliesGen_ok (get_sensor_dataframe_of_parse hne hp) 2], ?_⟩
    intro r hr
    rw [hrows]
    have hcast : ((2 : ℚ) : ℝ) = (2 : ℝ) := by norm_num
    rw [← hcast, ← zscoreExceeds_iff 2 _ _ r.temperature (by norm_num) hvpos]
    constructor
    · intro hmem
      obtain ⟨r', hr', heq⟩ := List.mem_map.mp hmem
      have htemp : r'.temperature = r.temperature := by
        have := congrArg AnomalyRecord.temperature heq
        simpa [anomalyRecordOf] using this
      have hcond := (List.mem_filter.mp hr').2
      rwa [htemp] at hcond
    · intro hcond
      exact List.mem_map_of_mem _ (List.mem_filter.mpr ⟨hr, hcond⟩)
  · unfold detect_anomalies
    rw [detectAnomaliesGen_ok (get_sensor_dataframe_of_parse (by decide) (by decide)) 2,
      detectRows_bufC3, bufC3_mean, bufC3_var]
    simp only [List.map_cons, List.map_nil]
    norm_num [anomalyRecordOf, mkN]

/-- Witness for detect_anomalies_zscore_threshold: its hypotheses hold at
the concrete snapshot bufC3, whose sample variance is nonzero because it
holds both temperature 20 and temperature 40. -/
theorem detect_anomalies_zscore_threshold_witness :
    10 ≤ bufC3.length
    ∧ ∃ recs, detect_anomalies bufC3 = .ok recs
        ∧ ∀ r ∈ bufC3,
            (anomalyRecordOf (meanQ (bufC3.map Reading.temperature))
                (sampleVarQ (bufC3.map Reading.temperature)) r ∈ recs
              ↔ (2 : ℝ) < |((r.temperature : ℝ)
                    - ((meanQ (bufC3.map Reading.temperature) : ℚ) : ℝ))
                  / Real.sqrt ((sampleVarQ (bufC3.map Reading.temperature) : ℚ) : ℝ)|) :=
  ⟨by decide,
    detect_anomalies_zscore_threshold.1 bufC3 (by decide) (by decide)
      (@sampleVarQ_ne_zero (bufC3.map Reading.temperature) 20 40
        (by decide) (by decide) (by decide) (by decide))⟩

/-! ### C4 -/

theorem get_statistical_summary_parse_ok {buf : List Reading} (hne : buf ≠ [])
    (hp : ∀ r ∈ buf, r.timestamp.microsecond ≠ 0) (order : List String) :
    get_statistical_summary order buf = .ok (some
      ⟨polarsMean (buf.map Reading.temperature),
        polarsStdSq (buf.map Reading.temperature),
        polarsMean (buf.map Reading.humidity),
        polarsStdSq (buf.map Reading.humidity),
        polarsMean (buf.map Reading.pressure),
        polarsStdSq (buf.map Reading.pressure),
        value_counts order (buf.map Reading.status)⟩) := by
  have h1 : get_statistical_summary order buf
      = if buf.isEmpty then .ok none
        else .ok (some
          ⟨polarsMean (buf.map Reading.temperature),
            polarsStdSq (buf.map Reading.temperature),
            polarsMean (buf.map Reading.humidity),
            polarsStdSq (buf.map Reading.humidity),
            polarsMean (buf.map Reading.pressure),
            polarsStdSq (buf.map Reading.pressure),
            value_counts order (buf.map Reading.status)⟩) := by
    unfold get_statistical_summary
    rw [get_sensor_dataframe_of_parse hne hp]
  rw [h1, if_neg (by simpa using hne)]

theorem polarsMean_of_ne_nil {xs : List ℚ} (h : xs ≠ []) :
    polarsMean xs = some (xs.sum / xs.length) := by
  unfold polarsMean meanQ
  rw [if_neg (by simpa using h)]

/-- The std value the code reports, from the exact square kept in the
summary: sqrt of the sample variance, null when the variance is null. -/
noncomputable def stdOfSq (o : Option ℚ) : Option ℝ :=
  o.map (fun q => Real.sqrt (Rat.cast q))

/-- C4 (amended): for every non-empty snapshot of parseable readings,
get_statistical_summary returns (without raising) the arithmetic mean of
each numeric field, and the sample standard deviation with denominator
n - 1 for n ≥ 2; for n = 1 polars std(ddof = 1) reports null (None), not
0. For k ≥ 2 identical readings the reported std is 0 (sqrt of a zero
sample variance) and the mean equals the common value for every numeric
field; for k = 1 the mean still equals the value but the std is null. -/
theorem summary_mean_and_sample_std :
    (∀ (order : List String) (buf : List Reading), buf ≠ [] →
      (∀ r ∈ buf, r.timestamp.microsecond ≠ 0) →
      ∃ s, get_statistical_summary order buf = .ok (some s)
        ∧ s.temp_mean = some ((buf.map Reading.temperature).sum
            / ((buf.map Reading.temperature).length : ℚ))
        ∧ s.humidity_mean = some ((buf.map Reading.humidity).sum
            / ((buf.map Reading.humidity).length : ℚ))
        ∧ s.pressure_mean = some ((buf.map Reading.pressure).sum
            / ((buf.map Reading.pressure).length : ℚ))
        ∧ (2 ≤ buf.length →
            s.temp_std_sq = some (sampleVarQ (buf.map Reading.temperature))
            ∧ s.humidity_std_sq = some (sampleVarQ (buf.map Reading.humidity))
            ∧ s.pressure_std_sq = some (sampleVarQ (buf.map Reading.pressure)))
        ∧ (buf.length = 1 →
            s.temp_std_sq = none ∧ s.humidity_std_sq = none ∧ s.pressure_std_sq = none))
    ∧ (∀ (order : List String) (k : Nat) (r : Reading), 2 ≤ k →
        r.timestamp.microsecond ≠ 0 →
        ∃ s, get_statistical_summary order (List.replicate k r) = .ok (some s)
          ∧ s.temp_mean = some r.temperature
          ∧ s.humidity_mean = some r.humidity
          ∧ s.pressure_mean = some r.pressure
          ∧ stdOfSq s.temp_std_sq = some 0
          ∧ stdOfSq s.humidity_std_sq = some 0
          ∧ stdOfSq s.pressure_std_sq = some 0) := by
  constructor
  · intro order buf hne hp
    refine ⟨_, get_statistical_summary_parse_ok hne hp order, ?_, ?_, ?_, ?_, ?_⟩
    · exact polarsMean_of_ne_nil (by simpa using hne)
    · exact polarsMean_of_ne_nil (by simpa using hne)
    · exact polarsMean_of_ne_nil (by simpa using hne)
    · intro h2
      refine ⟨?_, ?_, ?_⟩
      all_goals
        show polarsStdSq _ = _
        unfold polarsStdSq
        rw [if_neg (by rw [List.length_map]; omega)]
    · intro h1
      refine ⟨?_, ?_, ?_⟩
      all_goals
        show polarsStdSq _ = _
        unfold polarsStdSq
        rw [if_pos (by rw [List.length_map]; omega)]
  · intro order k r hk hp
    have hne : List.replicate k r ≠ [] := by
      intro h
      have := congrArg List.length h
      simp at this
      omega
    have hpall : ∀ x ∈ List.replicate k r, x.timestamp.microsecond ≠ 0 := by
      intro x hx
      rw [List.eq_of_mem_replicate hx]
      exact hp
    have hallmap : ∀ (f : Reading → ℚ), ∀ x ∈ (List.replicate k r).map f, x = f r := by
      intro f x hx
      obtain ⟨q, hq, rfl⟩ := List.mem_map.mp hx
      rw [List.eq_of_mem_replicate hq]
    refine ⟨_, get_statistical_summary_parse_ok hne hpall order, ?_, ?_, ?_, ?_, ?_, ?_⟩
    · show polarsMean _ = _
      unfold polarsMean
      rw [if_neg (by simpa using hne), meanQ_const (by simpa using hne) (hallmap _)]
    · show polarsMean _ = _
      unfold polarsMean
      rw [if_neg (by simpa using hne), meanQ_const (by simpa using hne) (hallmap _)]
    · show polarsMean _ = _
      unfold polarsMean
      rw [if_neg (by simpa using hne), meanQ_const (by simpa using hne) (hallmap _)]
    all_goals
      show stdOfSq (polarsStdSq _) = _
      unfold stdOfSq polarsStdSq
      rw [if_neg (by rw [List.length_map, List.length_replicate]; omega)]
      rw [sampleVarQ_const (hallmap _)]
      simp

/-- Witness for summary_mean_and_sample_std: two identical parseable
readings give mean 20 and reported std 0 for temperature. -/
theorem summary_mean_and_sample_std_witness :
    ∃ s, get_statistical_summary ["normal"] (List.replicate 2 rFrac) = .ok (some s)
      ∧ s.temp_mean = some rFrac.temperature
      ∧ s.humidity_mean = some rFrac.humidity
      ∧ s.pressure_mean = some rFrac.pressure
      ∧ stdOfSq s.temp_std_sq = some 0
      ∧ stdOfSq s.humidity_std_sq = some 0
      ∧ stdOfSq s.pressure_std_sq = some 0 :=
  summary_mean_and_sample_std.2 ["normal"] 2 rFrac (by decide) (by decide)

/-- The summary the code produces for the single-reading buffer [rFrac]:
every std entry is null. -/
def sC4 : Summary := ⟨some 20, none, some 50, none, some 1000, none, [("normal", 1)]⟩

/-- Counterexample to C4 as stated: for a buffer of k = 1 identical
readings the code reports std = null (polars std with ddof = 1 on one
sample), not the claimed 0. -/
theorem summary_single_reading_cex :
    validCountOrder ["normal"] ([rFrac].map Reading.status)
    ∧ get_statistical_summary ["normal"] [rFrac] = .ok (some sC4)
    ∧ sC4.temp_std_sq = none ∧ sC4.temp_std_sq ≠ some 0 := by
  refine ⟨by unfold validCountOrder; decide, ?_, rfl, by decide⟩
  rw [get_statistical_summary_parse_ok (show [rFrac] ≠ [] by decide) (by decide) ["normal"]]
  norm_num [sC4, polarsMean, polarsStdSq, meanQ, value_counts, rFrac]

/-! ### C7 -/

theorem summary_fields_of_ok {order : List String} {buf : List Reading} {s : Summary}
    (hs : get_statistical_summary order buf = .ok (some s)) :
    s.status_counts = value_counts order (buf.map Reading.status) := by
  unfold get_statistical_summary at hs
  split at hs
  · simp at hs
  · next df heq =>
      obtain rfl : df = buf := get_sensor_dataframe_ok heq
      split at hs
      · simp at hs
      · simp only [Except.ok.injEq, Option.some.injEq] at hs
        rw [← hs]

/-- C7 (amended): for every snapshot and realisable group-by emission
order, the status_counts of the summary cover exactly the observed status
categories, each with the number of readings carrying it; their order is
the unspecified group-by emission order — the code applies no alphabetical
sort. -/
theorem summary_status_counts (order : List String) (buf : List Reading) (s : Summary)
    (hord : validCountOrder order (buf.map Reading.status))
    (hs : get_statistical_summary order buf = .ok (some s)) :
    ((s.status_counts.map Prod.fst).Perm ((buf.map Reading.status).dedup))
    ∧ (∀ lbl cnt, (lbl, cnt) ∈ s.status_counts
        ↔ lbl ∈ buf.map Reading.status ∧ cnt = (buf.map Reading.status).count lbl) := by
  rw [summary_fields_of_ok hs]
  unfold validCountOrder at hord
  constructor
  · have hfst : (value_counts order (buf.map Reading.status)).map Prod.fst = order := by
      unfold value_counts
      rw [List.map_map]
      calc List.map (Prod.fst ∘ fun l => (l, (buf.map Reading.status).count l)) order
          = List.map id order := List.map_congr_left (fun x _ => rfl)
        _ = order := List.map_id order
    rw [hfst]
    exact hord
  · intro lbl cnt
    unfold value_counts
    constructor
    · intro hmem
      obtain ⟨a, ha, heq⟩ := List.mem_map.mp hmem
      have h1 : a = lbl := congrArg Prod.fst heq
      have h2 : (buf.map Reading.status).count a = cnt := congrArg Prod.snd heq
      subst h1
      refine ⟨?_, h2.symm⟩
      exact List.mem_dedup.mp (hord.mem_iff.mp ha)
    · rintro ⟨hmem, rfl⟩
      exact List.mem_map.mpr ⟨lbl, hord.mem_iff.mpr (List.mem_dedup.mpr hmem), rfl⟩

/-- Lexicographic order on the character codes of two labels: for the
ASCII category labels of this system this is exactly alphabetical order. -/
def lexLeNat : List Nat → List Nat → Bool
  | [], _ => true
  | _ :: _, [] => false
  | x :: xs, y :: ys => if x < y then true else if y < x then false else lexLeNat xs ys

/-- Alphabetical comparison of status labels. -/
def labelLe (a b : String) : Bool := lexLeNat (a.data.map Char.toNat) (b.data.map Char.toNat)

/-- A snapshot whose first reading has status "warning" and second has
status "normal". -/
def bufC7 : List Reading :=
  [⟨⟨2024, 1, 1, 0, 0, 0, 1⟩, 20, 50, 1000, "warning"⟩,
   ⟨⟨2024, 1, 1, 0, 0, 1, 1⟩, 20, 50, 1000, "normal"⟩]

/-- The summary the code produces on bufC7 when the group-by emits
"warning" before "normal". -/
def sC7 : Summary :=
  ⟨some 20, some 0, some 50, some 0, some 1000, some 0,
   [("warning", 1), ("normal", 1)]⟩

/-- Counterexample to C7 as stated: the group-by emission order
["warning", "normal"] is realisable (it enumerates exactly the observed
categories), yet the resulting status_counts entries are not sorted
alphabetically by label — the code never sorts them. -/
theorem summary_status_counts_cex :
    validCountOrder ["warning", "normal"] (bufC7.map Reading.status)
    ∧ get_statistical_summary ["warning", "normal"] bufC7 = .ok (some sC7)
    ∧ ¬ List.Pairwise (fun a b : String × Nat => labelLe a.1 b.1 = true) sC7.status_counts := by
  refine ⟨by unfold validCountOrder; decide, ?_, by decide⟩
  rw [get_statistical_summary_parse_ok (by decide) (by decide) _]
  norm_num [sC7, polarsMean, polarsStdSq, meanQ, sampleVarQ, value_counts, bufC7]
  decide

/-- Witness for summary_status_counts at the concrete snapshot bufC7 with
the emission order ["warning", "normal"]. -/
theorem summary_status_counts_witness :
    ∃ s, get_statistical_summary ["warning", "normal"] bufC7 = .ok (some s)
      ∧ ((s.status_counts.map Prod.fst).Perm ((bufC7.map Reading.status).dedup))
      ∧ (∀ lbl cnt, (lbl, cnt) ∈ s.status_counts
          ↔ lbl ∈ bufC7.map Reading.status
            ∧ cnt = (bufC7.map Reading.status).count lbl) := by
  refine ⟨_, get_statistical_summary_parse_ok (by decide) (by decide) _, ?_⟩
  exact summary_status_counts ["warning", "normal"] bufC7 _
    (by unfold validCountOrder; decide)
    (get_statistical_summary_parse_ok (by decide) (by decide) _)

/-! ### C8 -/

theorem detectRows_sublist (t : ℚ) (df : List Reading) :
    (detectRows t df).Sublist df := by
  unfold detectRows
  by_cases h : df.length < 10
  · rw [if_pos h]
    exact List.nil_sublist df
  · rw [if_neg h]
    exact List.filter_sublist df

/-- C8: every record detect_anomalies returns is built from a snapshot
reading and carries exactly the three selected fields — its timestamp, its
temperature and its z-score (the column the code names temp_zscore); and
whenever the snapshot is ordered by timestamp ascending, so is the
returned sequence (the filter preserves row order). -/
theorem detect_anomalies_record_shape (buf : List Reading) (recs : List AnomalyRecord)
    (h : detect_anomalies buf = .ok recs) :
    (∀ a ∈ recs, ∃ r ∈ buf,
        a = anomalyRecordOf (meanQ (buf.map Reading.temperature))
              (sampleVarQ (buf.map Reading.temperature)) r)
    ∧ (List.Pairwise (fun r₁ r₂ : Reading => r₁.timestamp.key ≤ r₂.timestamp.key) buf →
        List.Pairwise (fun a₁ a₂ : AnomalyRecord =>
          a₁.timestamp.key ≤ a₂.timestamp.key) recs) := by
  unfold detect_anomalies detectAnomaliesGen at h
  split at h
  · simp at h
  · next df heq =>
      obtain rfl : df = buf := get_sensor_dataframe_ok heq
      simp only [Except.ok.injEq] at h
      subst h
      constructor
      · intro a ha
        obtain ⟨r, hr, rfl⟩ := List.mem_map.mp ha
        exact ⟨r, (detectRows_sublist 2 df).subset hr, rfl⟩
      · intro hsorted
        rw [List.pairwise_map]
        have hrows := hsorted.sublist (detectRows_sublist 2 df)
        exact hrows.imp (fun hle => hle)

/-- Witness for detect_anomalies_record_shape: on the singleton parseable
buffer the result is the empty, trivially sorted record list. -/
theorem detect_anomalies_record_shape_witness :
    detect_anomalies [rFrac] = .ok []
    ∧ List.Pairwise (fun a₁ a₂ : AnomalyRecord =>
        a₁.timestamp.key ≤ a₂.timestamp.key) ([] : List AnomalyRecord) :=
  ⟨rfl, (detect_anomalies_record_shape [rFrac] [] rfl).2
    (List.pairwise_singleton _ _)⟩

/-! ### C2

app.py lines 90-119: each GET /stream connection starts its own
event_generator coroutine.  One loop iteration generates a reading,
appends it to the shared recent_readings deque and yields it to that
connection only; a client disconnect raises CancelledError inside that
coroutine alone.  There is no publish step that hands a reading to the
other connections: the per-connection loops are independent.  The asyncio
event loop runs an iteration atomically (the only await is the sleep after
the yield), which the step relation below reflects. -/

/-- One SSE connection: whether its coroutine is still running, and the
readings its event_generator has yielded to it, in order. -/
structure StreamState where
  isOpen : Bool
  delivered : List Reading
deriving DecidableEq, Repr

/-- The shared deque together with the per-connection stream states. -/
structure DashState where
  buffer : List Reading
  streams : List StreamState
deriving DecidableEq, Repr

/-- Events of the streaming endpoint: a new connection (GET /stream), one
loop iteration of connection i generating reading r, and the cancellation
of connection i (client disconnect). -/
inductive StreamEvent where
  | connect : StreamEvent
  | tick : Nat → Reading → StreamEvent
  | cancel : Nat → StreamEvent
deriving DecidableEq

/-- The step relation of the streaming endpoint.  A tick of an open
connection i appends the generated reading to the shared deque and yields
it to connection i alone; ticks of closed or unknown connections and
cancels of unknown connections do nothing. -/
def stepStream (s : DashState) (e : StreamEvent) : DashState :=
  match e with
  | .connect => ⟨s.buffer, s.streams ++ [⟨true, []⟩]⟩
  | .tick i r =>
    match s.streams[i]? with
    | some st =>
      if st.isOpen then
        ⟨dequeAppend recentReadingsMaxlen s.buffer r,
          s.streams.set i ⟨true, st.delivered ++ [r]⟩⟩
      else s
    | none => s
  | .cancel i =>
    match s.streams[i]? with
    | some st => ⟨s.buffer, s.streams.set i ⟨false, st.delivered⟩⟩
    | none => s

theorem stepStream_tick_open {s : DashState} {i : Nat} {st : StreamState} (r : Reading)
    (hst : s.streams[i]? = some st) (hopen : st.isOpen = true) :
    stepStream s (.tick i r)
      = ⟨dequeAppend recentReadingsMaxlen s.buffer r,
          s.streams.set i ⟨true, st.delivered ++ [r]⟩⟩ := by
  simp only [stepStream, hst]
  rw [if_pos hopen]

theorem stepStream_cancel_eq {s : DashState} {i : Nat} {st : StreamState}
    (hst : s.streams[i]? = some st) :
    stepStream s (.cancel i) = ⟨s.buffer, s.streams.set i ⟨false, st.delivered⟩⟩ := by
  simp only [stepStream, hst]

/-- The initial state with two open connections and an empty deque. -/
def sC2 : DashState := ⟨[], [⟨true, []⟩, ⟨true, []⟩]⟩

/-- Counterexample to C2 as stated: with two open connections, the loop
iteration of connection 0 that generates rFrac delivers it to connection 0
only; connection 1 stays open with an empty delivered list, so the reading
is not delivered to every currently-open subscription. -/
theorem stream_no_broadcast_cex :
    stepStream sC2 (.tick 0 rFrac)
      = ⟨[rFrac], [⟨true, [rFrac]⟩, ⟨true, []⟩]⟩
    ∧ ¬ (∀ st ∈ (stepStream sC2 (.tick 0 rFrac)).streams,
          st.isOpen = true → rFrac ∈ st.delivered) := by
  constructor
  · decide
  · decide

/-- C2 (amended): a loop iteration of an open connection i appends the
generated reading to the shared deque and delivers it to connection i
alone, leaving every other connection — open or closed — untouched; and
cancelling connection i closes it while keeping its delivered readings and
leaving every other connection untouched.  Isolation holds because the
per-connection coroutines are independent, but there is no broadcast:
a reading reaches only the connection whose loop generated it. -/
theorem stream_delivery_isolation (s : DashState) (i : Nat) (r : Reading)
    (st : StreamState) (hst : s.streams[i]? = some st) (hopen : st.isOpen = true) :
    ((stepStream s (.tick i r)).buffer = dequeAppend recentReadingsMaxlen s.buffer r
      ∧ (stepStream s (.tick i r)).streams[i]? = some ⟨true, st.delivered ++ [r]⟩
      ∧ ∀ j, j ≠ i → (stepStream s (.tick i r)).streams[j]? = s.streams[j]?)
    ∧ ((stepStream s (.cancel i)).streams[i]? = some ⟨false, st.delivered⟩
      ∧ ∀ j, j ≠ i → (stepStream s (.cancel i)).streams[j]? = s.streams[j]?) := by
  have hi : i < s.streams.length := by
    by_contra hge
    rw [List.getElem?_eq_none (le_of_not_lt hge)] at hst
    cases hst
  rw [stepStream_tick_open r hst hopen, stepStream_cancel_eq hst]
  refine ⟨⟨rfl, ?_, ?_⟩, ?_, ?_⟩
  · exact List.getElem?_set_eq_of_lt _ (by simpa using hi)
  · intro j hj
    exact List.getElem?_set_ne hj.symm
  · exact List.getElem?_set_eq_of_lt _ (by simpa using hi)
  · intro j hj
    exact List.getElem?_set_ne hj.symm

/-- Witness for stream_delivery_isolation at the concrete two-connection
state: ticking connection 0 leaves connection 1 as it was, and cancelling
connection 0 also leaves connection 1 as it was. -/
theorem stream_delivery_isolation_witness :
    (stepStream sC2 (.tick 0 rFrac)).streams[1]? = sC2.streams[1]?
    ∧ (stepStream sC2 (.cancel 0)).streams[1]? = sC2.streams[1]? :=
  ⟨(stream_delivery_isolation sC2 0 rFrac ⟨true, []⟩ rfl rfl).1.2.2 1 (by decide),
   (stream_delivery_isolation sC2 0 rFrac ⟨true, []⟩ rfl rfl).2.2 1 (by decide)⟩

end SensorDashboard
